import Mathlib

/-!
Verification of the Flowtab.Pro core against its source:
the credential-vault encryption service (`apps/api/encryption.py`) and the
copy-tracking / payout engine (`apps/api/crud.py`, `apps/api/models.py`,
`apps/api/router.py`).

Byte strings are modelled as `List Nat` (each element a byte value) and
Python text strings as `List Char`.
-/

/-- The lowercase hex digit for a value below 16 (as produced by Python's
`bytes.hex()`); values 15 and above map to 'f'. -/
def hexDigitChar (b : Nat) : Char :=
  match b with
  | 0 => '0' | 1 => '1' | 2 => '2' | 3 => '3'
  | 4 => '4' | 5 => '5' | 6 => '6' | 7 => '7'
  | 8 => '8' | 9 => '9' | 10 => 'a' | 11 => 'b'
  | 12 => 'c' | 13 => 'd' | 14 => 'e' | _ => 'f'

/-- The value of a hex digit character, upper or lower case, as accepted by
Python's `bytes.fromhex`. -/
def hexDigitVal (c : Char) : Option Nat :=
  if '0' ≤ c ∧ c ≤ '9' then some (c.toNat - '0'.toNat)
  else if 'a' ≤ c ∧ c ≤ 'f' then some (c.toNat - 'a'.toNat + 10)
  else if 'A' ≤ c ∧ c ≤ 'F' then some (c.toNat - 'A'.toNat + 10)
  else none

/-- Python `bytes.hex()` on one byte: two lowercase hex digits. -/
def byteToHex (b : Nat) : List Char :=
  [hexDigitChar (b / 16), hexDigitChar (b % 16)]

/-- Python `bytes.hex()`: each byte becomes two lowercase hex digits. -/
def bytesToHex (l : List Nat) : List Char :=
  l.foldr (fun b acc => byteToHex b ++ acc) []

/-- Python `bytes.fromhex`: pairs of hex digits, with spaces allowed between
pairs (not inside a pair); any other character, or an odd tail, is an error
(returns `none` where CPython raises `ValueError`). -/
def fromhex : List Char → Option (List Nat)
  | [] => some []
  | c :: rest =>
    if c = ' ' then fromhex rest
    else
      match rest with
      | [] => none
      | d :: rest2 =>
        match hexDigitVal c, hexDigitVal d with
        | some hi, some lo => (fromhex rest2).map (fun t => (16 * hi + lo) :: t)
        | _, _ => none

/-- Python `str.split(":")`: splits on every colon, keeping empty fields;
the empty string yields one empty field. -/
def splitColon : List Char → List (List Char)
  | [] => [[]]
  | c :: rest =>
    if c = ':' then [] :: splitColon rest
    else
      match splitColon rest with
      | p :: ps => (c :: p) :: ps
      | [] => [[c]]

theorem bytesToHex_nil : bytesToHex [] = [] := rfl

theorem bytesToHex_cons (b : Nat) (l : List Nat) :
    bytesToHex (b :: l) = byteToHex b ++ bytesToHex l := rfl

theorem bytesToHex_length (l : List Nat) :
    (bytesToHex l).length = 2 * l.length := by
  induction l with
  | nil => rfl
  | cons b t ih =>
    simp [bytesToHex_cons, byteToHex, ih]
    omega

theorem hexDigitChar_isHex (b : Nat) : (hexDigitVal (hexDigitChar b)).isSome := by
  unfold hexDigitChar
  split <;> decide

theorem hexDigitChar_ne_colon (b : Nat) : hexDigitChar b ≠ ':' := by
  unfold hexDigitChar
  split <;> decide

theorem hexDigitChar_ne_space (b : Nat) : hexDigitChar b ≠ ' ' := by
  unfold hexDigitChar
  split <;> decide

theorem hexDigitVal_hexDigitChar {b : Nat} (h : b < 16) :
    hexDigitVal (hexDigitChar b) = some b := by
  have key : ∀ n, n < 16 → hexDigitVal (hexDigitChar n) = some n := by decide
  exact key b h

theorem mem_bytesToHex_ne_colon {l : List Nat} {c : Char}
    (h : c ∈ bytesToHex l) : c ≠ ':' := by
  induction l with
  | nil => simp [bytesToHex] at h
  | cons b t ih =>
    rw [bytesToHex_cons] at h
    rcases List.mem_append.mp h with h1 | h2
    · simp [byteToHex] at h1
      rcases h1 with h1 | h1 <;> subst h1 <;> exact hexDigitChar_ne_colon _
    · exact ih h2

theorem fromhex_bytesToHex {l : List Nat} (h : ∀ b ∈ l, b < 256) :
    fromhex (bytesToHex l) = some l := by
  induction l with
  | nil => rfl
  | cons b t ih =>
    have hb : b < 256 := h b (List.mem_cons_self b t)
    have ht : ∀ x ∈ t, x < 256 := fun x hx => h x (List.mem_cons_of_mem b hx)
    have hhi : b / 16 < 16 := by omega
    have hlo : b % 16 < 16 := by omega
    rw [bytesToHex_cons]
    show fromhex (hexDigitChar (b / 16) :: hexDigitChar (b % 16) :: bytesToHex t) = _
    rw [fromhex]
    rw [if_neg (hexDigitChar_ne_space (b / 16))]
    simp only [hexDigitVal_hexDigitChar hhi, hexDigitVal_hexDigitChar hlo, ih ht,
      Option.map_some]
    rw [Nat.div_add_mod b 16]
    rfl

theorem splitColon_no_colon {l : List Char} (h : ∀ c ∈ l, c ≠ ':') :
    splitColon l = [l] := by
  induction l with
  | nil => rfl
  | cons c rest ih =>
    have hc : c ≠ ':' := h c (List.mem_cons_self c rest)
    have hrest : ∀ x ∈ rest, x ≠ ':' := fun x hx => h x (List.mem_cons_of_mem c hx)
    rw [splitColon, if_neg hc, ih hrest]

theorem splitColon_append_colon {a b : List Char} (h : ∀ c ∈ a, c ≠ ':') :
    splitColon (a ++ ':' :: b) = a :: splitColon b := by
  induction a with
  | nil => simp [splitColon]
  | cons c rest ih =>
    have hc : c ≠ ':' := h c (List.mem_cons_self c rest)
    have hrest : ∀ x ∈ rest, x ≠ ':' := fun x hx => h x (List.mem_cons_of_mem c hx)
    rw [List.cons_append, splitColon, if_neg hc, ih hrest]

theorem count_colon_no_colon {l : List Char} (h : ∀ c ∈ l, c ≠ ':') :
    l.count ':' = 0 := by
  rw [List.count_eq_zero]
  intro hmem
  exact h ':' hmem rfl

/-- The valid-scalar-value bound of a `Char`, restated over `Char.toNat`. -/
theorem char_toNat_valid (c : Char) :
    c.toNat < 0xd800 ∨ (0xdfff < c.toNat ∧ c.toNat < 0x110000) := by
  rcases c.valid with h | ⟨h1, h2⟩
  · exact Or.inl (UInt32.toNat_lt_of_lt (by decide) h)
  · exact Or.inr ⟨UInt32.lt_toNat_of_lt (by decide) h1,
      UInt32.toNat_lt_of_lt (by decide) h2⟩

/-- UTF-8 encoding of one Unicode scalar value (as Python `str.encode("utf-8")`
produces for each code point). -/
def utf8EncodeCharNat (n : Nat) : List Nat :=
  if n < 0x80 then [n]
  else if n < 0x800 then [0xC0 + n / 64, 0x80 + n % 64]
  else if n < 0x10000 then
    [0xE0 + n / 4096, 0x80 + n / 64 % 64, 0x80 + n % 64]
  else
    [0xF0 + n / 262144, 0x80 + n / 4096 % 64, 0x80 + n / 64 % 64, 0x80 + n % 64]

/-- Python `str.encode("utf-8")`: the concatenated encodings of the string's
code points. -/
def utf8Encode (s : List Char) : List Nat :=
  s.foldr (fun c acc => utf8EncodeCharNat c.toNat ++ acc) []



/-- Is `b` a UTF-8 continuation byte (`0x80..0xBF`)? -/
def utf8Cont (b : Nat) : Bool :=
  decide (0x80 ≤ b) && decide (b < 0xC0)

/-- Scalar value of a two-byte UTF-8 sequence. -/
def utf8Val2 (b b1 : Nat) : Nat := (b - 0xC0) * 64 + (b1 - 0x80)

/-- Scalar value of a three-byte UTF-8 sequence. -/
def utf8Val3 (b b1 b2 : Nat) : Nat := (b - 0xE0) * 4096 + (b1 - 0x80) * 64 + (b2 - 0x80)

/-- Scalar value of a four-byte UTF-8 sequence. -/
def utf8Val4 (b b1 b2 b3 : Nat) : Nat :=
  (b - 0xF0) * 262144 + (b1 - 0x80) * 4096 + (b2 - 0x80) * 64 + (b3 - 0x80)

/-- One step of strict UTF-8 decoding (as Python `bytes.decode("utf-8")`):
reads one encoded character off the front of the byte list, rejecting stray
continuation bytes, truncated sequences, overlong forms, surrogates and
out-of-range values (`none` where CPython raises). -/
def utf8DecodeChar (l : List Nat) : Option (Char × List Nat) :=
  match l with
  | [] => none
  | b :: rest =>
    if b < 0x80 then some (Char.ofNat b, rest)
    else if b < 0xC2 then none
    else if b < 0xE0 then
      match rest with
      | b1 :: rest1 =>
        if utf8Cont b1 then some (Char.ofNat (utf8Val2 b b1), rest1) else none
      | [] => none
    else if b < 0xF0 then
      match rest with
      | b1 :: b2 :: rest2 =>
        if utf8Cont b1 && utf8Cont b2 then
          if decide (utf8Val3 b b1 b2 < 0x800) ||
             (decide (0xD800 ≤ utf8Val3 b b1 b2) && decide (utf8Val3 b b1 b2 < 0xE000)) then
            none
          else some (Char.ofNat (utf8Val3 b b1 b2), rest2)
        else none
      | _ => none
    else if b < 0xF5 then
      match rest with
      | b1 :: b2 :: b3 :: rest3 =>
        if utf8Cont b1 && utf8Cont b2 && utf8Cont b3 then
          if decide (utf8Val4 b b1 b2 b3 < 0x10000) ||
             decide (0x110000 ≤ utf8Val4 b b1 b2 b3) then
            none
          else some (Char.ofNat (utf8Val4 b b1 b2 b3), rest3)
        else none
      | _ => none
    else none

theorem utf8DecodeChar_shrinks {l r : List Nat} {c : Char}
    (h : utf8DecodeChar l = some (c, r)) : r.length < l.length := by
  cases l with
  | nil => exact Option.noConfusion h
  | cons b rest =>
    unfold utf8DecodeChar at h
    dsimp only at h
    repeat' split at h
    all_goals first
      | exact Option.noConfusion h
      | (injection h with h1
         injection h1 with h2 h3
         subst h3
         simp <;> omega)

/-- Python `bytes.decode("utf-8")`: strict UTF-8 decoding of a whole byte
list, one character at a time. -/
def utf8Decode : List Nat → Option (List Char)
  | [] => some []
  | b :: rest =>
    match h : utf8DecodeChar (b :: rest) with
    | none => none
    | some (c, rest2) => (utf8Decode rest2).map (fun t => c :: t)
  termination_by l => l.length
  decreasing_by exact utf8DecodeChar_shrinks h

theorem utf8Encode_nil : utf8Encode [] = [] := rfl

theorem utf8Encode_cons (c : Char) (s : List Char) :
    utf8Encode (c :: s) = utf8EncodeCharNat c.toNat ++ utf8Encode s := rfl

theorem utf8EncodeCharNat_bytes_lt {n : Nat} (hn : n < 0x110000) :
    ∀ b ∈ utf8EncodeCharNat n, b < 256 := by
  intro b hb
  unfold utf8EncodeCharNat at hb
  split at hb
  · simp at hb; omega
  · split at hb
    · simp at hb; rcases hb with h | h <;> omega
    · split at hb
      · simp at hb; rcases hb with h | h | h <;> omega
      · simp at hb; rcases hb with h | h | h | h <;> omega

theorem utf8Encode_bytes_lt (s : List Char) : ∀ b ∈ utf8Encode s, b < 256 := by
  induction s with
  | nil => intro b hb; simp [utf8Encode] at hb
  | cons c t ih =>
    intro b hb
    rw [utf8Encode_cons] at hb
    rcases List.mem_append.mp hb with h | h
    · rcases char_toNat_valid c with hv | hv
      · exact utf8EncodeCharNat_bytes_lt (by omega) b h
      · exact utf8EncodeCharNat_bytes_lt (by omega) b h
    · exact ih b h

theorem utf8DecodeChar_one {n : Nat} (h : n < 0x80) (rest : List Nat) :
    utf8DecodeChar (n :: rest) = some (Char.ofNat n, rest) := by
  unfold utf8DecodeChar
  dsimp only
  rw [if_pos h]

theorem utf8DecodeChar_two {n : Nat} (h1 : 0x80 ≤ n) (h2 : n < 0x800) (rest : List Nat) :
    utf8DecodeChar ((0xC0 + n / 64) :: (0x80 + n % 64) :: rest) =
      some (Char.ofNat n, rest) := by
  unfold utf8DecodeChar
  dsimp only
  rw [if_neg (by omega), if_neg (by omega), if_pos (by omega)]
  rw [if_pos (show utf8Cont (0x80 + n % 64) = true by simp [utf8Cont]; omega)]
  have harg : utf8Val2 (0xC0 + n / 64) (0x80 + n % 64) = n := by
    unfold utf8Val2; omega
  rw [harg]

theorem utf8DecodeChar_three {n : Nat} (h1 : 0x800 ≤ n) (h2 : n < 0x10000)
    (hval : n < 0xD800 ∨ 0xDFFF < n) (rest : List Nat) :
    utf8DecodeChar ((0xE0 + n / 4096) :: (0x80 + n / 64 % 64) :: (0x80 + n % 64) :: rest) =
      some (Char.ofNat n, rest) := by
  unfold utf8DecodeChar
  dsimp only
  rw [if_neg (by omega), if_neg (by omega), if_neg (by omega), if_pos (by omega)]
  have harg : utf8Val3 (0xE0 + n / 4096) (0x80 + n / 64 % 64) (0x80 + n % 64) = n := by
    unfold utf8Val3; omega
  rw [if_pos (show (utf8Cont (0x80 + n / 64 % 64) && utf8Cont (0x80 + n % 64)) = true by
    simp [utf8Cont]; omega)]
  rw [harg, if_neg (by simp; omega)]

theorem utf8DecodeChar_four {n : Nat} (h1 : 0x10000 ≤ n) (h2 : n < 0x110000) (rest : List Nat) :
    utf8DecodeChar ((0xF0 + n / 262144) :: (0x80 + n / 4096 % 64) :: (0x80 + n / 64 % 64) ::
        (0x80 + n % 64) :: rest) = some (Char.ofNat n, rest) := by
  unfold utf8DecodeChar
  dsimp only
  rw [if_neg (by omega), if_neg (by omega), if_neg (by omega), if_neg (by omega),
    if_pos (by omega)]
  have harg : utf8Val4 (0xF0 + n / 262144) (0x80 + n / 4096 % 64) (0x80 + n / 64 % 64)
      (0x80 + n % 64) = n := by
    unfold utf8Val4; omega
  rw [if_pos (show (utf8Cont (0x80 + n / 4096 % 64) && utf8Cont (0x80 + n / 64 % 64) &&
      utf8Cont (0x80 + n % 64)) = true by simp [utf8Cont]; omega)]
  rw [harg, if_neg (by simp; omega)]

/-- Decoding the front of `utf8EncodeCharNat c.toNat ++ rest` yields `c`. -/
theorem utf8DecodeChar_encodeChar (c : Char) (rest : List Nat) :
    utf8DecodeChar (utf8EncodeCharNat c.toNat ++ rest) = some (c, rest) := by
  have hval := char_toNat_valid c
  unfold utf8EncodeCharNat
  by_cases hc1 : c.toNat < 0x80
  · rw [if_pos hc1]
    simp only [List.cons_append, List.nil_append]
    rw [utf8DecodeChar_one hc1, Char.ofNat_toNat]
  · rw [if_neg hc1]
    by_cases hc2 : c.toNat < 0x800
    · rw [if_pos hc2]
      simp only [List.cons_append, List.nil_append]
      rw [utf8DecodeChar_two (by omega) hc2, Char.ofNat_toNat]
    · rw [if_neg hc2]
      by_cases hc3 : c.toNat < 0x10000
      · rw [if_pos hc3]
        simp only [List.cons_append, List.nil_append]
        rw [utf8DecodeChar_three (by omega) hc3 (by omega), Char.ofNat_toNat]
      · rw [if_neg hc3]
        simp only [List.cons_append, List.nil_append]
        rw [utf8DecodeChar_four (by omega) (by omega), Char.ofNat_toNat]

theorem utf8Decode_nil : utf8Decode [] = some [] := by
  rw [utf8Decode]

theorem utf8Decode_step {l r : List Nat} {c : Char}
    (h : utf8DecodeChar l = some (c, r)) :
    utf8Decode l = (utf8Decode r).map (fun t => c :: t) := by
  cases l with
  | nil => exact Option.noConfusion h
  | cons b rest =>
    rw [utf8Decode]
    split
    · rename_i h'
      rw [h] at h'
      exact Option.noConfusion h'
    · rename_i c' r' h'
      rw [h] at h'
      injection h' with h1
      injection h1 with h2 h3
      subst h2
      subst h3
      rfl

/-- UTF-8 round-trip: decoding the encoding of any string gives it back. -/
theorem utf8Decode_utf8Encode (s : List Char) : utf8Decode (utf8Encode s) = some s := by
  induction s with
  | nil => exact utf8Decode_nil
  | cons c t ih =>
    rw [utf8Encode_cons, utf8Decode_step (utf8DecodeChar_encodeChar c (utf8Encode t)), ih]
    rfl

/-- Modelled from the spec: the AES-256-GCM primitive (`AESGCM` from the
`cryptography` library, external to this repository) already bound to one
256-bit key, as held in `EncryptionService.aesgcm`.  `enc nonce msg` is the
AEAD output — ciphertext body with the 128-bit tag appended — and `dec` the
keyed inverse.  The fields state the contract the spec relies on: the output
is 16 bytes longer than the message, is made of bytes, and decrypting an
encryption under the same nonce and key returns the message. -/
structure AEAD where
  enc : List Nat → List Nat → List Nat
  dec : List Nat → List Nat → Option (List Nat)
  enc_length : ∀ nonce msg, (enc nonce msg).length = msg.length + 16
  dec_enc : ∀ nonce msg, dec nonce (enc nonce msg) = some msg
  enc_bytes : ∀ nonce msg, (∀ b ∈ msg, b < 256) → ∀ b ∈ enc nonce msg, b < 256

/-- Errors raised by `EncryptionService.__init__` (both are `ValueError`s in
the source; they are distinguished here by cause). -/
inductive InitError where
  | invalidHex
  | badKeyLength
deriving DecidableEq

/-- The state of a constructed `EncryptionService`: its decoded 32-byte key. -/
structure EncryptionService where
  key : List Nat
deriving DecidableEq

/-- `EncryptionService.__init__`: hex-decodes the configured key and requires
exactly 32 bytes, aborting construction otherwise. -/
def EncryptionService.init (encryption_key : List Char) : Except InitError EncryptionService :=
  match fromhex encryption_key with
  | none => .error .invalidHex
  | some key =>
    if key.length ≠ 32 then .error .badKeyLength
    else .ok ⟨key⟩

/-- `EncryptionService.encrypt`: AEAD-encrypt the UTF-8 bytes of the
plaintext under a fresh 12-byte nonce `iv` (the entropy drawn from
`os.urandom(12)` is passed in explicitly), split off the 16-byte auth tag,
and return `hex(iv) + ":" + hex(tag) + ":" + hex(body)`. -/
def encrypt (A : AEAD) (iv : List Nat) (plaintext : List Char) : List Char :=
  let plaintext_bytes := utf8Encode plaintext
  let ciphertext := A.enc iv plaintext_bytes
  let auth_tag := ciphertext.drop (ciphertext.length - 16)
  let encrypted_content := ciphertext.take (ciphertext.length - 16)
  bytesToHex iv ++ ':' :: (bytesToHex auth_tag ++ ':' :: bytesToHex encrypted_content)

/-- Errors raised by `EncryptionService.decrypt` (each is re-raised by the
source as a `ValueError` wrapping the cause). -/
inductive DecryptError where
  | invalidFormat
  | invalidHex
  | authFailed
  | invalidUtf8
deriving DecidableEq

/-- `EncryptionService.decrypt`: split on `:` into exactly three parts,
hex-decode each, reassemble ciphertext body + tag, AEAD-decrypt and
UTF-8-decode. -/
def decrypt (A : AEAD) (encrypted_text : List Char) : Except DecryptError (List Char) :=
  match splitColon encrypted_text with
  | [iv_hex, auth_tag_hex, encrypted_hex] =>
    match fromhex iv_hex, fromhex auth_tag_hex, fromhex encrypted_hex with
    | some iv, some auth_tag, some encrypted_content =>
      match A.dec iv (encrypted_content ++ auth_tag) with
      | some plaintext_bytes =>
        match utf8Decode plaintext_bytes with
        | some s => .ok s
        | none => .error .invalidUtf8
      | none => .error .authFailed
    | _, _, _ => .error .invalidHex
  | _ => .error .invalidFormat

/-- A concrete `AEAD` witness instance: appends a 16-byte zero tag. -/
def toyAEAD : AEAD where
  enc := fun _ msg => msg ++ List.replicate 16 0
  dec := fun _ c => if c.length < 16 then none else some (c.take (c.length - 16))
  enc_length := by
    intro nonce msg
    simp
  dec_enc := by
    intro nonce msg
    show (if _ then _ else _) = _
    rw [if_neg (by simp)]
    congr 1
    have : (msg ++ List.replicate 16 0).length - 16 = msg.length := by simp
    rw [this]
    exact List.take_left msg (List.replicate 16 0)
  enc_bytes := by
    intro nonce msg hm b hb
    rcases List.mem_append.mp hb with h | h
    · exact hm b h
    · simp [List.eq_of_mem_replicate h]

theorem encrypt_eq (A : AEAD) (iv : List Nat) (P : List Char) :
    encrypt A iv P =
      bytesToHex iv ++ ':' ::
        (bytesToHex ((A.enc iv (utf8Encode P)).drop ((A.enc iv (utf8Encode P)).length - 16)) ++
          ':' :: bytesToHex ((A.enc iv (utf8Encode P)).take ((A.enc iv (utf8Encode P)).length - 16))) :=
  rfl

theorem splitColon_encrypt (A : AEAD) (iv : List Nat) (P : List Char) :
    splitColon (encrypt A iv P) =
      [bytesToHex iv,
       bytesToHex ((A.enc iv (utf8Encode P)).drop ((A.enc iv (utf8Encode P)).length - 16)),
       bytesToHex ((A.enc iv (utf8Encode P)).take ((A.enc iv (utf8Encode P)).length - 16))] := by
  rw [encrypt_eq]
  rw [splitColon_append_colon (fun c hc => mem_bytesToHex_ne_colon hc)]
  rw [splitColon_append_colon (fun c hc => mem_bytesToHex_ne_colon hc)]
  rw [splitColon_no_colon (fun c hc => mem_bytesToHex_ne_colon hc)]

theorem decrypt_encrypt_core (A : AEAD) (iv : List Nat) (P : List Char)
    (hiv : ∀ b ∈ iv, b < 256) :
    decrypt A (encrypt A iv P) = .ok P := by
  have hmsg : ∀ b ∈ utf8Encode P, b < 256 := utf8Encode_bytes_lt P
  have hct : ∀ b ∈ A.enc iv (utf8Encode P), b < 256 := A.enc_bytes iv _ hmsg
  have htag : ∀ b ∈ (A.enc iv (utf8Encode P)).drop ((A.enc iv (utf8Encode P)).length - 16),
      b < 256 := fun b hb => hct b (List.drop_subset _ _ hb)
  have hbody : ∀ b ∈ (A.enc iv (utf8Encode P)).take ((A.enc iv (utf8Encode P)).length - 16),
      b < 256 := fun b hb => hct b (List.take_subset _ _ hb)
  unfold decrypt
  rw [splitColon_encrypt]
  dsimp only
  rw [fromhex_bytesToHex hiv, fromhex_bytesToHex htag, fromhex_bytesToHex hbody]
  dsimp only
  rw [List.take_append_drop, A.dec_enc]
  dsimp only
  rw [utf8Decode_utf8Encode]

/-- C2: for every plaintext string (empty, multi-byte UTF-8, arbitrary
length), decrypting the encryption of the plaintext under the same key — the
nonce being the 12 fresh bytes drawn from `os.urandom(12)` — returns the
plaintext. -/
theorem C2_decrypt_encrypt_roundtrip (A : AEAD) (iv : List Nat) (P : List Char)
    (hlen : iv.length = 12) (hiv : ∀ b ∈ iv, b < 256) :
    decrypt A (encrypt A iv P) = .ok P :=
  decrypt_encrypt_core A iv P hiv

/-- C2 witness: the round trip evaluated at the empty string and at a string
with multi-byte UTF-8 characters, under a concrete AEAD instance. -/
theorem C2_decrypt_encrypt_roundtrip_witness :
    decrypt toyAEAD (encrypt toyAEAD (List.replicate 12 0) []) = .ok [] ∧
    decrypt toyAEAD (encrypt toyAEAD (List.replicate 12 0) ['s', 'k', '-', 'é', '✓']) =
      .ok ['s', 'k', '-', 'é', '✓'] :=
  ⟨C2_decrypt_encrypt_roundtrip toyAEAD (List.replicate 12 0) [] (by simp)
      (fun b hb => by simp [List.eq_of_mem_replicate hb]),
   C2_decrypt_encrypt_roundtrip toyAEAD (List.replicate 12 0) ['s', 'k', '-', 'é', '✓']
      (by simp) (fun b hb => by simp [List.eq_of_mem_replicate hb])⟩

/-- C3: every encryption is `hex(nonce):hex(tag):hex(body)` — three fields
joined by exactly two colons, the 12-byte nonce giving 24 hex characters and
the tag, the final 16 bytes of the AEAD output, giving 32 hex characters. -/
theorem C3_encrypt_format (A : AEAD) (iv : List Nat) (P : List Char)
    (hlen : iv.length = 12) :
    splitColon (encrypt A iv P) =
      [bytesToHex iv,
       bytesToHex ((A.enc iv (utf8Encode P)).drop ((A.enc iv (utf8Encode P)).length - 16)),
       bytesToHex ((A.enc iv (utf8Encode P)).take ((A.enc iv (utf8Encode P)).length - 16))] ∧
    (bytesToHex iv).length = 24 ∧
    ((A.enc iv (utf8Encode P)).drop ((A.enc iv (utf8Encode P)).length - 16)).length = 16 ∧
    (bytesToHex ((A.enc iv (utf8Encode P)).drop ((A.enc iv (utf8Encode P)).length - 16))).length
      = 32 ∧
    (encrypt A iv P).count ':' = 2 := by
  have hctlen : (A.enc iv (utf8Encode P)).length = (utf8Encode P).length + 16 :=
    A.enc_length iv (utf8Encode P)
  have htaglen :
      ((A.enc iv (utf8Encode P)).drop ((A.enc iv (utf8Encode P)).length - 16)).length = 16 := by
    rw [List.length_drop]
    omega
  refine ⟨splitColon_encrypt A iv P, ?_, htaglen, ?_, ?_⟩
  · rw [bytesToHex_length, hlen]
  · rw [bytesToHex_length, htaglen]
  · rw [encrypt_eq]
    rw [List.count_append, List.count_cons, List.count_append, List.count_cons]
    rw [count_colon_no_colon (fun c hc => mem_bytesToHex_ne_colon hc),
      count_colon_no_colon (fun c hc => mem_bytesToHex_ne_colon hc),
      count_colon_no_colon (fun c hc => mem_bytesToHex_ne_colon hc)]
    simp

/-- C3 witness: the format facts at a concrete AEAD, nonce and plaintext. -/
theorem C3_encrypt_format_witness :
    splitColon (encrypt toyAEAD (List.replicate 12 0) []) =
      [bytesToHex (List.replicate 12 0),
       bytesToHex ((toyAEAD.enc (List.replicate 12 0) (utf8Encode [])).drop
         ((toyAEAD.enc (List.replicate 12 0) (utf8Encode [])).length - 16)),
       bytesToHex ((toyAEAD.enc (List.replicate 12 0) (utf8Encode [])).take
         ((toyAEAD.enc (List.replicate 12 0) (utf8Encode [])).length - 16))] ∧
    (bytesToHex (List.replicate 12 0)).length = 24 ∧
    ((toyAEAD.enc (List.replicate 12 0) (utf8Encode [])).drop
      ((toyAEAD.enc (List.replicate 12 0) (utf8Encode [])).length - 16)).length = 16 ∧
    (bytesToHex ((toyAEAD.enc (List.replicate 12 0) (utf8Encode [])).drop
      ((toyAEAD.enc (List.replicate 12 0) (utf8Encode [])).length - 16))).length = 32 ∧
    (encrypt toyAEAD (List.replicate 12 0) []).count ':' = 2 :=
  C3_encrypt_format toyAEAD (List.replicate 12 0) [] (by simp)

/-- C6: construction of the encryption service fails whenever the hex-decoded
key is not exactly 32 bytes, and succeeds — storing exactly the decoded
bytes, neither truncated nor padded — when it is. -/
theorem C6_init_key_length (encryption_key : List Char) (k : List Nat)
    (hdec : fromhex encryption_key = some k) :
    (k.length ≠ 32 → EncryptionService.init encryption_key = .error .badKeyLength) ∧
    (k.length = 32 → EncryptionService.init encryption_key = .ok ⟨k⟩) := by
  constructor
  · intro h
    unfold EncryptionService.init
    rw [hdec]
    dsimp only
    rw [if_pos h]
  · intro h
    unfold EncryptionService.init
    rw [hdec]
    dsimp only
    rw [if_neg (by omega)]

/-- C6 witness: a 64-hex-character key (32 bytes) is accepted with the
decoded bytes stored verbatim; a 32-hex-character key (16 bytes) is
rejected. -/
theorem C6_init_key_length_witness :
    EncryptionService.init (List.replicate 64 '0') = .ok ⟨List.replicate 32 0⟩ ∧
    EncryptionService.init (List.replicate 32 '0') = .error .badKeyLength :=
  ⟨(C6_init_key_length (List.replicate 64 '0') (List.replicate 32 0) (by decide)).2 (by decide),
   (C6_init_key_length (List.replicate 32 '0') (List.replicate 16 0) (by decide)).1 (by decide)⟩

/-- C7: whenever splitting the input on `:` does not give exactly 3 parts, or
some part is not decodable hex, `decrypt` fails with a format-level error
(a raised `ValueError` in the source) and never returns a plaintext. -/
theorem C7_decrypt_malformed (A : AEAD) (s : List Char)
    (h : (splitColon s).length ≠ 3 ∨ ∃ p ∈ splitColon s, fromhex p = none) :
    decrypt A s = .error .invalidFormat ∨ decrypt A s = .error .invalidHex := by
  unfold decrypt
  rcases hsp : splitColon s with _ | ⟨a, _ | ⟨b, _ | ⟨c, _ | ⟨d, t⟩⟩⟩⟩
  · exact Or.inl rfl
  · exact Or.inl rfl
  · exact Or.inl rfl
  · rw [hsp] at h
    rcases h with hlen | ⟨p, hp, hnone⟩
    · exact absurd rfl hlen
    · dsimp only
      cases hfa : fromhex a with
      | none =>
        cases hfb : fromhex b <;> cases hfc : fromhex c <;> exact Or.inr rfl
      | some va =>
        cases hfb : fromhex b with
        | none => cases hfc : fromhex c <;> exact Or.inr rfl
        | some vb =>
          cases hfc : fromhex c with
          | none => exact Or.inr rfl
          | some vc =>
            exfalso
            rcases List.mem_cons.mp hp with hpa | hp2
            · subst hpa; rw [hfa] at hnone; exact Option.noConfusion hnone
            · rcases List.mem_cons.mp hp2 with hpb | hp3
              · subst hpb; rw [hfb] at hnone; exact Option.noConfusion hnone
              · rcases List.mem_cons.mp hp3 with hpc | hp4
                · subst hpc; rw [hfc] at hnone; exact Option.noConfusion hnone
                · exact absurd hp4 (List.not_mem_nil p)
  · exact Or.inl rfl

/-- C7 witness: the two concrete malformed inputs from the spec — seven
colon-separated parts, and a single part — are both rejected. -/
theorem C7_decrypt_malformed_witness :
    (decrypt toyAEAD ("not:a:valid:format:with:six:parts".toList) =
        .error .invalidFormat ∨
     decrypt toyAEAD ("not:a:valid:format:with:six:parts".toList) = .error .invalidHex) ∧
    (decrypt toyAEAD ("onepart".toList) = .error .invalidFormat ∨
     decrypt toyAEAD ("onepart".toList) = .error .invalidHex) :=
  ⟨C7_decrypt_malformed toyAEAD _ (by decide), C7_decrypt_malformed toyAEAD _ (by decide)⟩

/-- A point in time, at day granularity (the fields of Python's `datetime`
used by the copy-tracking logic). -/
structure DateTime where
  year : Nat
  month : Nat
  day : Nat
deriving DecidableEq

/-- `models.Prompt` (a "flow"), restricted to the fields the copy route
reads: primary key, author and the running copy counter. -/
structure Prompt where
  id : String
  author_id : String
  total_copies : Nat
deriving DecidableEq

/-- `models.Subscription`, restricted to the fields the copy route reads. -/
structure Subscription where
  user_id : String
  status : String
deriving DecidableEq

/-- `models.FlowCopy`: append-only log of flow copy events, with the unique
constraint `uq_copy_user_flow_month` on (user_id, flow_id, billing_month). -/
structure FlowCopy where
  id : String
  user_id : String
  flow_id : String
  creator_id : String
  counted_for_payout : Bool
  copied_at : DateTime
  billing_month : DateTime
deriving DecidableEq

/-- `models.CreatorPayout`: monthly aggregated payouts, unique per
(creator_id, billing_month). -/
structure CreatorPayout where
  id : String
  creator_id : String
  billing_month : DateTime
  copy_count : Nat
  amount_cents : Nat
  status : String
  stripe_transfer_id : Option String
  paid_at : Option DateTime
  created_at : DateTime
  updated_at : DateTime
deriving DecidableEq

/-- The relational store, as rows of the tables the copy/payout engine
touches. -/
structure Db where
  prompts : List Prompt
  subscriptions : List Subscription
  flow_copies : List FlowCopy
  payouts : List CreatorPayout
deriving DecidableEq

/-- `crud.get_billing_month_start`: first day of the month of `date`. -/
def get_billing_month_start (date : DateTime) : DateTime :=
  ⟨date.year, date.month, 1⟩

/-- `crud.count_copies_this_month`: count of `FlowCopy` rows for the user in
the current billing month with `counted_for_payout = true`. -/
def count_copies_this_month (db : Db) (user_id : String) (now : DateTime) : Nat :=
  (db.flow_copies.filter (fun c =>
    c.user_id == user_id && c.billing_month == get_billing_month_start now &&
      c.counted_for_payout)).length

/-- `crud.get_copies_this_month`: all copies by the user in the given billing
month. -/
def get_copies_this_month (db : Db) (user_id : String) (billing_month : DateTime) :
    List FlowCopy :=
  db.flow_copies.filter (fun c =>
    c.user_id == user_id && c.billing_month == billing_month)

/-- `crud.has_copied_this_month`: does a `FlowCopy` row exist for
(user, flow, current billing month)? -/
def has_copied_this_month (db : Db) (user_id flow_id : String) (now : DateTime) : Bool :=
  db.flow_copies.any (fun c =>
    c.user_id == user_id && c.flow_id == flow_id &&
      c.billing_month == get_billing_month_start now)

/-- The store's `uq_copy_user_flow_month` unique constraint: would inserting
`copy` violate it? -/
def violates_copy_unique (db : Db) (copy : FlowCopy) : Bool :=
  db.flow_copies.any (fun c =>
    c.user_id == copy.user_id && c.flow_id == copy.flow_id &&
      c.billing_month == copy.billing_month)

/-- How a `crud.record_flow_copy` call fails: the duplicate-copy domain error
(`ValueError` from the pre-check) or the store's `IntegrityError` raised at
commit when the unique constraint is violated — which `record_flow_copy`
does not catch. -/
inductive CopyError where
  | alreadyCopied (user_id flow_id : String)
  | integrityError
deriving DecidableEq

/-- `crud.record_flow_copy`, with its two store interactions split: the
pre-check (`has_copied_this_month`) reads `dbCheck`, and the insert commits
against `dbInsert`.  In a single-threaded run the two states coincide
(`record_flow_copy` below); letting them differ models a concurrent
interleaving between check and commit.  The fresh uuid4 primary key is passed
in as `newId`. -/
def record_flow_copy_from (dbCheck dbInsert : Db)
    (newId user_id flow_id creator_id : String) (counted_for_payout : Bool)
    (now : DateTime) : Except CopyError (Db × FlowCopy) :=
  if has_copied_this_month dbCheck user_id flow_id now then
    .error (.alreadyCopied user_id flow_id)
  else
    let copy : FlowCopy :=
      ⟨newId, user_id, flow_id, creator_id, counted_for_payout, now,
        get_billing_month_start now⟩
    if violates_copy_unique dbInsert copy then .error .integrityError
    else .ok ({ dbInsert with flow_copies := copy :: dbInsert.flow_copies }, copy)

/-- `crud.record_flow_copy` in a single-threaded run: pre-check and insert
see the same store state. -/
def record_flow_copy (db : Db) (newId user_id flow_id creator_id : String)
    (counted_for_payout : Bool) (now : DateTime) : Except CopyError (Db × FlowCopy) :=
  record_flow_copy_from db db newId user_id flow_id creator_id counted_for_payout now

/-- `crud.get_subscription_by_user`: first subscription row for the user. -/
def get_subscription_by_user (db : Db) (user_id : String) : Option Subscription :=
  db.subscriptions.find? (fun s => s.user_id == user_id)

/-- `crud.get_or_create_payout`: look up the payout row for
(creator, billing month), creating it with zero counts and status `pending`
when absent.  `newId` is the fresh uuid4 key and `now` the row timestamp. -/
def get_or_create_payout (db : Db) (newId creator_id : String)
    (billing_month now : DateTime) : Db × CreatorPayout :=
  match db.payouts.find? (fun p =>
      p.creator_id == creator_id && p.billing_month == billing_month) with
  | some payout => (db, payout)
  | none =>
    let payout : CreatorPayout :=
      ⟨newId, creator_id, billing_month, 0, 0, "pending", none, none, now, now⟩
    ({ db with payouts := payout :: db.payouts }, payout)

/-- Modelled from the spec: the payout aggregation step.  The spec (§4.2)
notes it is "not modeled as an explicit event in-repo but implied by the
schema": no function under `src/` recomputes `copy_count`/`amount_cents`.
Per the spec, `copy_count` is the number of `FlowCopy` rows with
`counted_for_payout = true` for the payout's creator and billing month, and
`amount_cents = copy_count × 7`. -/
def recompute_payout (events : List FlowCopy) (p : CreatorPayout) : CreatorPayout :=
  let n := (events.filter (fun e =>
    e.creator_id == p.creator_id && e.billing_month == p.billing_month &&
      e.counted_for_payout)).length
  { p with copy_count := n, amount_cents := n * 7 }

/-- `crud.update_payout_status`: look the payout up by id; if found, set the
status unconditionally, record a truthy `stripe_transfer_id`, stamp
`paid_at` when the new status is `"paid"`, and refresh `updated_at`. -/
def update_payout_status (db : Db) (payout_id status : String)
    (stripe_transfer_id : Option String) (now : DateTime) : Db × Option CreatorPayout :=
  match db.payouts.find? (fun p => p.id == payout_id) with
  | none => (db, none)
  | some payout =>
    let p1 := { payout with status := status }
    let p2 := match stripe_transfer_id with
      | some r => if r = "" then p1 else { p1 with stripe_transfer_id := some r }
      | none => p1
    let p3 := if status == "paid" then { p2 with paid_at := some now } else p2
    let p4 := { p3 with updated_at := now }
    ({ db with payouts := db.payouts.map (fun q => if q.id == payout_id then p4 else q) },
     some p4)

/-- `crud.get_total_earnings`: sum of `amount_cents` over the creator's
payouts with status `"paid"` (SQL `SUM` returning `NULL`, hence 0, when no
rows match). -/
def get_total_earnings (db : Db) (creator_id : String) : Nat :=
  ((db.payouts.filter (fun p => p.creator_id == creator_id && p.status == "paid")).map
    (fun p => p.amount_cents)).sum

/-- The responses of the `POST /flows/{flow_id}/copy` route handler
(`router.record_flow_copy`): the error responses (404/403/409/429/400/500)
and the success `FlowCopyResponse`. -/
inductive RouteResult where
  | notFound
  | forbidden
  | conflict
  | limitExceeded
  | badRequest
  | serverError
  | ok (id user_id flow_id : String) (copied_at : DateTime)
       (copies_this_month copies_remaining payout_earned : Nat)
deriving DecidableEq

/-- `router.record_flow_copy` (the route handler): look the flow up, require
an active subscription, reject a repeat copy this month (409), reject once
100 counted copies are reached (429), then record the copy — payout-eligible
iff under the cap — bump the flow's `total_copies`, and report the new count,
copies remaining and cents earned. -/
def route_record_flow_copy (db : Db) (newId : String) (now : DateTime)
    (current_user_id flow_id : String) : Db × RouteResult :=
  match db.prompts.find? (fun p => p.id == flow_id) with
  | none => (db, .notFound)
  | some flow =>
    match get_subscription_by_user db current_user_id with
    | none => (db, .forbidden)
    | some subscription =>
      if subscription.status ≠ "active" then (db, .forbidden)
      else if has_copied_this_month db current_user_id flow_id now then (db, .conflict)
      else
        let copies_count := count_copies_this_month db current_user_id now
        if 100 ≤ copies_count then (db, .limitExceeded)
        else
          match record_flow_copy db newId current_user_id flow_id flow.author_id
              (decide (copies_count < 100)) now with
          | .error (.alreadyCopied _ _) => (db, .badRequest)
          | .error .integrityError => (db, .serverError)
          | .ok (db1, copy) =>
            let db2 := { db1 with prompts := db1.prompts.map (fun p =>
              if p.id == flow.id then { p with total_copies := p.total_copies + 1 } else p) }
            let new_copy_count := count_copies_this_month db2 current_user_id now
            (db2, .ok copy.id copy.user_id copy.flow_id copy.copied_at new_copy_count
              (max 0 (100 - new_copy_count))
              (if copies_count < 100 then 7 else 0))

/-- A concrete moment (mid-January) used by concrete evaluations. -/
def jan15 : DateTime := ⟨2026, 1, 15⟩

/-- The first day of that billing month. -/
def jan1 : DateTime := ⟨2026, 1, 1⟩

/-- C8: `count_copies_this_month` counts exactly the user's current-month
rows with `counted_for_payout = true` — it agrees with filtering the user's
monthly copies down to the counted ones, and an event recorded with
`counted_for_payout = false` leaves the count unchanged. -/
theorem C8_count_copies (db : Db) (user_id : String) (now : DateTime) (e : FlowCopy) :
    count_copies_this_month db user_id now =
      ((get_copies_this_month db user_id (get_billing_month_start now)).filter
        (fun c => c.counted_for_payout)).length ∧
    (e.counted_for_payout = false →
      count_copies_this_month { db with flow_copies := e :: db.flow_copies } user_id now =
        count_copies_this_month db user_id now) := by
  constructor
  · unfold count_copies_this_month get_copies_this_month
    rw [List.filter_filter]
    congr 1
    exact List.filter_congr (fun a _ => Bool.and_comm _ _)
  · intro h
    unfold count_copies_this_month
    dsimp only
    rw [List.filter_cons]
    rw [if_neg (by simp [h])]

/-- C8 witness: adding an un-counted event for the user in the current month
does not change the count, on concrete data. -/
theorem C8_count_copies_witness :
    count_copies_this_month
        { prompts := [], subscriptions := [],
          flow_copies :=
            (⟨"c9", "alice", "F9", "bob", false, jan15, jan1⟩ : FlowCopy) ::
              [⟨"c8", "alice", "F8", "bob", true, jan15, jan1⟩],
          payouts := [] } "alice" jan15 =
      count_copies_this_month
        { prompts := [], subscriptions := [],
          flow_copies := [⟨"c8", "alice", "F8", "bob", true, jan15, jan1⟩],
          payouts := [] } "alice" jan15 :=
  (C8_count_copies
    { prompts := [], subscriptions := [],
      flow_copies := [⟨"c8", "alice", "F8", "bob", true, jan15, jan1⟩], payouts := [] }
    "alice" jan15 ⟨"c9", "alice", "F9", "bob", false, jan15, jan1⟩).2 rfl

/-- C9: `get_total_earnings` sums `amount_cents` over exactly the creator's
payouts with status `"paid"`: it is 0 when the creator has no paid payout,
and a newly considered payout contributes its amount iff it belongs to the
creator and is paid. -/
theorem C9_total_earnings (db : Db) (creator_id : String) (p : CreatorPayout) :
    ((∀ q ∈ db.payouts, q.creator_id = creator_id → q.status ≠ "paid") →
       get_total_earnings db creator_id = 0) ∧
    get_total_earnings { db with payouts := p :: db.payouts } creator_id =
      (if p.creator_id = creator_id ∧ p.status = "paid" then p.amount_cents else 0) +
        get_total_earnings db creator_id := by
  constructor
  · intro h
    unfold get_total_earnings
    have hnil : db.payouts.filter
        (fun q => q.creator_id == creator_id && q.status == "paid") = [] := by
      rw [List.filter_eq_nil_iff]
      intro q hq hpq
      simp at hpq
      exact h q hq hpq.1 hpq.2
    rw [hnil]
    rfl
  · unfold get_total_earnings
    dsimp only
    rw [List.filter_cons]
    by_cases hc : p.creator_id = creator_id ∧ p.status = "paid"
    · rw [if_pos hc, if_pos (by simp [hc.1, hc.2])]
      rw [List.map_cons, List.sum_cons]
    · rw [if_neg hc, if_neg (by simp; intro h1 h2; exact hc ⟨h1, h2⟩)]
      simp

/-- C9 witness: a creator with only pending/processing/failed payouts has
zero realized earnings. -/
theorem C9_total_earnings_witness :
    get_total_earnings
      { prompts := [], subscriptions := [], flow_copies := [],
        payouts :=
          [⟨"p1", "bob", jan1, 3, 21, "pending", none, none, jan1, jan1⟩,
           ⟨"p2", "bob", jan1, 2, 14, "processing", none, none, jan1, jan1⟩,
           ⟨"p3", "bob", jan1, 1, 7, "failed", none, none, jan1, jan1⟩] } "bob" = 0 :=
  (C9_total_earnings
    { prompts := [], subscriptions := [], flow_copies := [],
      payouts :=
        [⟨"p1", "bob", jan1, 3, 21, "pending", none, none, jan1, jan1⟩,
         ⟨"p2", "bob", jan1, 2, 14, "processing", none, none, jan1, jan1⟩,
         ⟨"p3", "bob", jan1, 1, 7, "failed", none, none, jan1, jan1⟩] } "bob"
    ⟨"p0", "bob", jan1, 0, 0, "pending", none, none, jan1, jan1⟩).1 (by decide)

/-- C5: the payout aggregation — `copy_count` recomputed as the number of
counted copy events of the payout's creator and month, `amount_cents` as
`copy_count × 7` — is idempotent, and on the spec's scenario (one counted
January copy of bob's flow, payout fetched by `get_or_create_payout` for
(bob, January 1st)) recomputes `copy_count` to 1 and `amount_cents` to 7. -/
theorem C5_payout_aggregation (events : List FlowCopy) (p : CreatorPayout) :
    (recompute_payout events p).copy_count =
      (events.filter (fun e => e.creator_id == p.creator_id &&
        e.billing_month == p.billing_month && e.counted_for_payout)).length ∧
    (recompute_payout events p).amount_cents = (recompute_payout events p).copy_count * 7 ∧
    recompute_payout events (recompute_payout events p) = recompute_payout events p ∧
    (recompute_payout [⟨"c1", "alice", "F1", "bob", true, jan15, jan1⟩]
      (get_or_create_payout ⟨[], [], [], []⟩ "p1" "bob" jan1 jan15).2).copy_count = 1 ∧
    (recompute_payout [⟨"c1", "alice", "F1", "bob", true, jan15, jan1⟩]
      (get_or_create_payout ⟨[], [], [], []⟩ "p1" "bob" jan1 jan15).2).amount_cents = 7 :=
  ⟨rfl, rfl, rfl, by decide, by decide⟩

/-- A payout already in status `"paid"`, for the C10 counterexample. -/
def payoutPaid : CreatorPayout :=
  ⟨"p1", "bob", jan1, 3, 21, "paid", some "tr_0", some jan15, jan1, jan1⟩

/-- A store holding only `payoutPaid`. -/
def dbPaid : Db := ⟨[], [], [], [payoutPaid]⟩

/-- C10 counterexample: the claim allows only the transitions
pending → processing → paid / failed, but `update_payout_status` moves a
payout whose status is already `"paid"` straight back to `"pending"` —
a transition outside the claimed set — rather than rejecting it. -/
theorem C10_counterexample :
    payoutPaid.status = "paid" ∧
    ((update_payout_status dbPaid "p1" "pending" none jan15).2.map
      (fun p => p.status)) = some "pending" ∧
    ((update_payout_status dbPaid "p1" "pending" none jan15).1.payouts.map
      (fun p => p.status)) = ["pending"] :=
  ⟨rfl, rfl, rfl⟩

/-- C10 (amended): `update_payout_status` applies any requested status
without validating transitions.  When the payout id is found, the new status
is stored unconditionally; status `"paid"` additionally stamps `paid_at`
with the current time; a supplied non-empty `transfer_ref` is recorded, while
an absent or empty one leaves the stored reference unchanged. -/
theorem C10_update_payout_status (db : Db) (payout_id status : String)
    (ref : Option String) (now : DateTime) (p : CreatorPayout)
    (hfind : db.payouts.find? (fun q => q.id == payout_id) = some p) :
    ∃ p', update_payout_status db payout_id status ref now =
        ({ db with payouts :=
            db.payouts.map (fun q => if q.id == payout_id then p' else q) }, some p') ∧
      p'.status = status ∧
      (status = "paid" → p'.paid_at = some now) ∧
      (status ≠ "paid" → p'.paid_at = p.paid_at) ∧
      (∀ r, ref = some r → r ≠ "" → p'.stripe_transfer_id = some r) ∧
      ((ref = none ∨ ref = some "") → p'.stripe_transfer_id = p.stripe_transfer_id) ∧
      p'.updated_at = now ∧
      p'.copy_count = p.copy_count ∧ p'.amount_cents = p.amount_cents := by
  unfold update_payout_status
  rw [hfind]
  dsimp only
  refine ⟨_, rfl, ?_, ?_, ?_, ?_, ?_, rfl, ?_, ?_⟩
  · cases ref with
    | none => by_cases hs : status = "paid" <;> simp [hs]
    | some r =>
      by_cases hr : r = "" <;> by_cases hs : status = "paid" <;> simp [hs, hr]
  · intro hs
    cases ref with
    | none => simp [hs]
    | some r => by_cases hr : r = "" <;> simp [hs, hr]
  · intro hs
    cases ref with
    | none => simp [hs]
    | some r => by_cases hr : r = "" <;> simp [hs, hr]
  · intro r hr hne
    subst hr
    by_cases hs : status = "paid" <;> simp [hs, hne]
  · intro hr
    rcases hr with hr | hr <;> subst hr <;> by_cases hs : status = "paid" <;> simp [hs]
  · cases ref with
    | none => by_cases hs : status = "paid" <;> simp [hs]
    | some r =>
      by_cases hr : r = "" <;> by_cases hs : status = "paid" <;> simp [hs, hr]
  · cases ref with
    | none => by_cases hs : status = "paid" <;> simp [hs]
    | some r =>
      by_cases hr : r = "" <;> by_cases hs : status = "paid" <;> simp [hs, hr]

/-- A pending payout and its store, for the C10 witness. -/
def payoutPending : CreatorPayout := ⟨"p7", "bob", jan1, 2, 14, "pending", none, none, jan1, jan1⟩

/-- The store holding only `payoutPending`. -/
def dbPending : Db := ⟨[], [], [], [payoutPending]⟩

/-- C10 witness: the amended behavior evaluated on a concrete pending payout
updated to `"processing"` with a transfer reference. -/
theorem C10_update_payout_status_witness :
    ∃ p', update_payout_status dbPending "p7" "processing" (some "tr_1") jan15 =
        ({ dbPending with payouts :=
            dbPending.payouts.map (fun q => if q.id == "p7" then p' else q) }, some p') ∧
      p'.status = "processing" ∧
      ("processing" = "paid" → p'.paid_at = some jan15) ∧
      ("processing" ≠ "paid" → p'.paid_at = payoutPending.paid_at) ∧
      (∀ r, (some "tr_1" : Option String) = some r → r ≠ "" →
        p'.stripe_transfer_id = some r) ∧
      (((some "tr_1" : Option String) = none ∨ (some "tr_1" : Option String) = some "") →
        p'.stripe_transfer_id = payoutPending.stripe_transfer_id) ∧
      p'.updated_at = jan15 ∧
      p'.copy_count = payoutPending.copy_count ∧
      p'.amount_cents = payoutPending.amount_cents :=
  C10_update_payout_status dbPending "p7" "processing" (some "tr_1") jan15 payoutPending
    (by decide)

/-- An existing January copy event of flow "f" by user "u". -/
def copyJan : FlowCopy := ⟨"c0", "u", "f", "bob", true, jan15, jan1⟩

/-- A store already holding `copyJan`. -/
def dbWithCopy : Db := ⟨[], [], [copyJan], []⟩

/-- The empty store. -/
def dbEmpty : Db := ⟨[], [], [], []⟩

/-- C1 counterexample: when the duplicate for (user, flow, month) is visible
only to the store's unique constraint at insert time (the pre-check ran
against a state without it), `record_flow_copy` surfaces the store's
`IntegrityError` — not the duplicate-copy domain error the claim requires in
every duplicate case. -/
theorem C1_counterexample :
    record_flow_copy_from dbEmpty dbWithCopy "c1" "u" "f" "bob" true jan15 =
      .error .integrityError ∧
    CopyError.integrityError ≠ CopyError.alreadyCopied "u" "f" :=
  ⟨rfl, fun h => CopyError.noConfusion h⟩

/-- C1 (amended): when the pre-check and the insert see the same store state,
`record_flow_copy` fails with the duplicate-copy domain error whenever an
event for (user, flow, current month) already exists; a duplicate visible
only at insert time is surfaced as the store's `IntegrityError` instead; and
on success exactly one event row for (user, flow, month) exists in the
resulting store. -/
theorem C1_record_flow_copy (dbCheck dbInsert : Db)
    (newId user_id flow_id creator_id : String) (counted : Bool) (now : DateTime) :
    (has_copied_this_month dbCheck user_id flow_id now = true →
       record_flow_copy_from dbCheck dbInsert newId user_id flow_id creator_id counted now =
         .error (.alreadyCopied user_id flow_id)) ∧
    (has_copied_this_month dbCheck user_id flow_id now = false →
     has_copied_this_month dbInsert user_id flow_id now = true →
       record_flow_copy_from dbCheck dbInsert newId user_id flow_id creator_id counted now =
         .error .integrityError) ∧
    (∀ db' copy,
       record_flow_copy_from dbCheck dbInsert newId user_id flow_id creator_id counted now =
         .ok (db', copy) →
       (db'.flow_copies.filter (fun c => c.user_id == user_id && c.flow_id == flow_id &&
         c.billing_month == get_billing_month_start now)).length = 1) := by
  have hviol : violates_copy_unique dbInsert
      ⟨newId, user_id, flow_id, creator_id, counted, now, get_billing_month_start now⟩ =
      has_copied_this_month dbInsert user_id flow_id now := rfl
  refine ⟨?_, ?_, ?_⟩
  · intro h
    unfold record_flow_copy_from
    rw [if_pos h]
  · intro h1 h2
    unfold record_flow_copy_from
    rw [if_neg (by rw [h1]; exact Bool.false_ne_true)]
    dsimp only
    rw [hviol, if_pos h2]
  · intro db' copy h
    unfold record_flow_copy_from at h
    by_cases h1 : has_copied_this_month dbCheck user_id flow_id now = true
    · rw [if_pos h1] at h
      exact Except.noConfusion h
    · rw [if_neg h1] at h
      dsimp only at h
      rw [hviol] at h
      by_cases h2 : has_copied_this_month dbInsert user_id flow_id now = true
      · rw [if_pos h2] at h
        exact Except.noConfusion h
      · rw [if_neg h2] at h
        injection h with h3
        injection h3 with h4 h5
        subst h4
        dsimp only
        rw [List.filter_cons]
        rw [if_pos (by simp)]
        have hnil : dbInsert.flow_copies.filter
            (fun c => c.user_id == user_id && c.flow_id == flow_id &&
              c.billing_month == get_billing_month_start now) = [] := by
          rw [List.filter_eq_nil_iff]
          intro c hc hpc
          apply h2
          unfold has_copied_this_month
          rw [List.any_eq_true]
          exact ⟨c, hc, hpc⟩
        rw [hnil]
        rfl

/-- C1 witness: the duplicate guard fires with the domain error when the
duplicate is visible to the pre-check, and a successful record leaves exactly
one row for (user, flow, month). -/
theorem C1_record_flow_copy_witness :
    record_flow_copy_from dbWithCopy dbWithCopy "c1" "u" "f" "bob" true jan15 =
      .error (.alreadyCopied "u" "f") ∧
    ((({ dbEmpty with flow_copies :=
        [⟨"c1", "u", "f", "bob", true, jan15, jan1⟩] } : Db).flow_copies.filter
      (fun c => c.user_id == "u" && c.flow_id == "f" &&
        c.billing_month == get_billing_month_start jan15)).length = 1) :=
  ⟨(C1_record_flow_copy dbWithCopy dbWithCopy "c1" "u" "f" "bob" true jan15).1 (by decide),
   (C1_record_flow_copy dbEmpty dbEmpty "c1" "u" "f" "bob" true jan15).2.2
     { dbEmpty with flow_copies := [⟨"c1", "u", "f", "bob", true, jan15, jan1⟩] }
     ⟨"c1", "u", "f", "bob", true, jan15, jan1⟩ rfl⟩

/-- A store where user "u" has an active subscription and exactly 100
counted copy events this month (flows "f0".."f99" of creator "bob"), and
flow "f100" exists and has not been copied. -/
def db100 : Db :=
  ⟨(List.range 101).map (fun i => ⟨"f" ++ toString i, "bob", 0⟩),
   [⟨"u", "active"⟩],
   (List.range 100).map (fun i => ⟨"c" ++ toString i, "u", "f" ++ toString i, "bob",
     true, jan15, jan1⟩),
   []⟩

/-- C4 counterexample: with exactly 100 counted copies already recorded this
month, the 101st copy call — for flow "f100", not yet copied — does not
succeed with `counted_for_payout = false`: the route rejects it with the
429 limit response before recording anything, leaving the store unchanged. -/
theorem C4_counterexample :
    count_copies_this_month db100 "u" jan15 = 100 ∧
    has_copied_this_month db100 "u" "f100" jan15 = false ∧
    route_record_flow_copy db100 "c100" jan15 "u" "f100" = (db100, .limitExceeded) :=
  ⟨rfl, rfl, rfl⟩

/-- C4 (amended): when the flow exists, the caller's subscription is active
and the flow has not been copied this month, the route rejects the call with
the limit response (recording nothing) as soon as the user's counted copies
have reached 100; only calls made strictly under the cap succeed, and those
are recorded with `counted_for_payout = true` and earn the creator 7 cents. -/
theorem C4_route_quota (db : Db) (newId : String) (now : DateTime)
    (user_id flow_id : String) (flow : Prompt) (sub : Subscription)
    (hflow : db.prompts.find? (fun p => p.id == flow_id) = some flow)
    (hsub : get_subscription_by_user db user_id = some sub)
    (hactive : sub.status = "active")
    (hdup : has_copied_this_month db user_id flow_id now = false) :
    (100 ≤ count_copies_this_month db user_id now →
       route_record_flow_copy db newId now user_id flow_id = (db, .limitExceeded)) ∧
    (count_copies_this_month db user_id now < 100 →
       ∃ db2, route_record_flow_copy db newId now user_id flow_id =
           (db2, .ok newId user_id flow_id now
             (count_copies_this_month db2 user_id now)
             (max 0 (100 - count_copies_this_month db2 user_id now)) 7) ∧
         db2.flow_copies =
           (⟨newId, user_id, flow_id, flow.author_id, true, now,
             get_billing_month_start now⟩ : FlowCopy) :: db.flow_copies) := by
  unfold route_record_flow_copy
  rw [hflow, hsub]
  dsimp only
  rw [if_neg (by simp [hactive])]
  rw [if_neg (by rw [hdup]; exact Bool.false_ne_true)]
  constructor
  · intro h
    rw [if_pos h]
  · intro h
    rw [if_neg (by omega)]
    rw [decide_eq_true h]
    unfold record_flow_copy record_flow_copy_from
    rw [if_neg (by rw [hdup]; exact Bool.false_ne_true)]
    dsimp only
    have hviol : violates_copy_unique db
        ⟨newId, user_id, flow_id, flow.author_id, true, now, get_billing_month_start now⟩ =
        has_copied_this_month db user_id flow_id now := rfl
    rw [hviol, hdup]
    rw [if_neg Bool.false_ne_true]
    dsimp only
    rw [if_pos h]
    exact ⟨_, rfl, rfl⟩

/-- A one-flow store for the C4 witness: flow "F1" by creator "bob", user
"alice" subscribed and with no copies yet. -/
def dbFresh : Db := ⟨[⟨"F1", "bob", 0⟩], [⟨"alice", "active"⟩], [], []⟩

/-- C4 witness: under the cap (0 copies), the route succeeds, records the
copy with `counted_for_payout = true` and reports 7 cents earned. -/
theorem C4_route_quota_witness :
    ∃ db2, route_record_flow_copy dbFresh "c1" jan15 "alice" "F1" =
        (db2, .ok "c1" "alice" "F1" jan15
          (count_copies_this_month db2 "alice" jan15)
          (max 0 (100 - count_copies_this_month db2 "alice" jan15)) 7) ∧
      db2.flow_copies =
        (⟨"c1", "alice", "F1", "bob", true, jan15,
          get_billing_month_start jan15⟩ : FlowCopy) :: dbFresh.flow_copies :=
  (C4_route_quota dbFresh "c1" jan15 "alice" "F1" ⟨"F1", "bob", 0⟩ ⟨"alice", "active"⟩
    (by decide) (by decide) rfl rfl).2 (by decide)
